import Mathlib

/-!
# Verification of the `pir` pass framework (`paddle/pir/pass/pass.h`)

Shallow embedding of the pass-execution framework: `detail::PassExecutionState`,
`detail::PassInfo`, `Pass`, and `PatternRewritePass` are translated from
`src/paddle/pir/pass/pass.h`.  The collaborators whose implementations are not
part of the sources (the `AnalysisManager`, the pattern-set containers, the
greedy rewrite driver and the `PassManager` orchestration) are modelled from
the specification, each such definition marked `Modelled from the spec:` in its
doc comment.  C++ `IR_ENFORCE` failures are modelled as `Except.error` carrying
the message string.
-/

namespace PirPass

/-- Modelled from the spec: the analysis cache handle (`AnalysisManager`,
declared in `paddle/pir/pass/analysis_manager.h`, not among the sources).  Only
its identity matters for the pass-state claims, so it is a cache keyed by
analysis-kind identifier. -/
structure AnalysisManager where
  cache : List (Nat × Nat) := []
deriving DecidableEq, Repr

/-- Modelled from the spec: `PreservedAnalyses`, the set-valued declaration of
analysis kinds a pass preserves (declared in `analysis_manager.h`, not among
the sources); default-constructed it is empty. -/
structure PreservedAnalyses where
  preserved : List Nat := []
deriving DecidableEq, Repr

/-- An operation kind together with a small payload; the IR graph itself is an
external collaborator, so operations inside a region are modelled by kind and
attribute only. -/
structure OpNode where
  kind : Nat
  attr : Nat
deriving DecidableEq, Repr

/-- A region is the list of its contained operations in definition order. -/
abbrev Region := List OpNode

/-- An `Operation` as far as the pass framework needs it: a kind and the list
of nested regions (`op->region(i)`). -/
structure Operation where
  kind : Nat
  regions : List Region
deriving DecidableEq, Repr

/-- `detail::PassExecutionState` from `pass.h`: the IR root being processed,
the `pass_failed` flag, the analysis-manager handle and the preserved-analyses
declaration. -/
structure PassExecutionState where
  ir : Operation
  pass_failed : Bool
  am : AnalysisManager
  preserved_analyses : PreservedAnalyses
deriving DecidableEq, Repr

/-- The `PassExecutionState(Operation* ir, const AnalysisManager& am)`
constructor: stores `ir` and `am`, sets `pass_failed` to `false`, and
default-constructs `preserved_analyses`. -/
def PassExecutionState.make (ir : Operation) (am : AnalysisManager) :
    PassExecutionState :=
  { ir := ir, pass_failed := false, am := am, preserved_analyses := {} }

/-- `detail::PassInfo` from `pass.h`: pass name, opt level (a `uint8_t`, so
reduced mod 2^8) and the list of pass names this pass depends on. -/
structure PassInfo where
  name : String
  opt_level : Nat
  dependents : List String
deriving DecidableEq, Repr

/-- The `PassInfo` constructor reduces the `uint8_t` opt level modulo 2^8. -/
def PassInfo.make (name : String) (opt_level : Nat)
    (dependents : List String := []) : PassInfo :=
  { name := name, opt_level := opt_level % 2 ^ 8, dependents := dependents }

/-- A rewrite rule (`RewritePattern`): the operation kind it is anchored on,
its benefit used for tie-breaking, a match predicate and the replacement it
produces on success.  The rule objects themselves live in
`pattern_rewrite_driver.h`; this shape follows the spec's data model
(kind-scoped rule with a benefit value, match-and-replace). -/
structure RewritePattern where
  kind : Nat
  benefit : Nat
  matched : OpNode → Bool
  rewrite : OpNode → List OpNode

/-- Modelled from the spec: the mutable builder `RewritePatternSet` (declared
in `pattern_rewrite_driver.h`, not among the sources) — the ordered collection
of rules in registration order. -/
structure RewritePatternSet where
  patterns : List RewritePattern

/-- `RewritePatternSet::Empty()`: whether no rule has been registered. -/
def RewritePatternSet.Empty (ps : RewritePatternSet) : Bool :=
  ps.patterns.isEmpty

/-- Modelled from the spec: the sealed, immutable `FrozenRewritePatternSet`
(declared in `pattern_rewrite_driver.h`, not among the sources). -/
structure FrozenRewritePatternSet where
  patterns : List RewritePattern

/-- Freezing a pattern set (`FrozenRewritePatternSet(std::move(ps))`) keeps the
rules in registration order. -/
def RewritePatternSet.freeze (ps : RewritePatternSet) : FrozenRewritePatternSet :=
  { patterns := ps.patterns }

/-- The message of the `IR_ENFORCE` in `PatternRewritePass::Initialize`
(adjacent C++ string literals concatenate, `%s` is the pass name). -/
def patternPassEmptyMsg (name : String) : String :=
  "Pass creation failed." ++
    "When using PatternRewritePass to create a Pass, the number of " ++
    "customized Patterns is required to be greater than zero." ++
    "Suggested fix: Check whether Pattern is added to the " ++
    "InitializePatterns() function of class [" ++ name ++ "]"

/-- `PatternRewritePass::Initialize` from `pass.h`, given the set produced by
the subclass's `InitializePatterns`: enforce that the set is non-empty (an
`IR_ENFORCE` failure, modelled as `Except.error`), then freeze it and return
`true` (the frozen set standing for the stored `patterns_`). -/
def patternRewriteInit (name : String) (ps : RewritePatternSet) :
    Except String (FrozenRewritePatternSet × Bool) :=
  if ps.Empty = false then
    Except.ok (ps.freeze, true)
  else
    Except.error (patternPassEmptyMsg name)

/-- `GreedyRewriteConfig` as used by `PatternRewritePass::Run`: the traversal
order flag and the iteration bound. -/
structure GreedyRewriteConfig where
  use_top_down_traversal : Bool
  max_iterations : Nat
deriving DecidableEq, Repr

/-- The configuration `PatternRewritePass::Run` builds: top-down traversal and
`max_iterations = 10`. -/
def patternRewriteRunConfig : GreedyRewriteConfig :=
  { use_top_down_traversal := true, max_iterations := 10 }

/-! ## Greedy pattern-rewrite driver

Modelled from the spec (§4.4): the driver implementation
(`ApplyPatternsGreedily` in `pattern_rewrite_driver.h`, not among the sources)
is a fixed-point worklist sweep over the region, bounded by
`max_iterations`.  Rules are queried by the operation's kind; among matching
rules the one with the greatest benefit wins, ties broken by registration
order. -/

/-- The candidate rules for an operation: the registered rules paired with
their registration index, restricted to those anchored on the operation's kind
whose match predicate succeeds. -/
def candidates (pats : List RewritePattern) (op : OpNode) :
    List (Nat × RewritePattern) :=
  pats.enum.filter fun ip => ip.2.kind == op.kind && ip.2.matched op

/-- Of two indexed rules, keep the later one only when its benefit is strictly
greater — the earlier registration wins ties. -/
def pickBetter (x b : Nat × RewritePattern) : Nat × RewritePattern :=
  if b.2.benefit > x.2.benefit then b else x

/-- Pick the first element attaining the maximal benefit: a later rule
displaces an earlier one only when its benefit is strictly greater, realizing
the descending-benefit, registration-order tie-break. -/
def chooseBest : List (Nat × RewritePattern) → Option (Nat × RewritePattern)
  | [] => none
  | x :: xs => some ((chooseBest xs).elim x (fun b => pickBetter x b))

/-- Modelled from the spec: rule selection for one operation — among the
matching candidates, the rule of maximal benefit, earliest registration on
ties. -/
def selectRule (pats : List RewritePattern) (op : OpNode) :
    Option (Nat × RewritePattern) :=
  chooseBest (candidates pats op)

/-- One sweep over the operations of a region in list (top-down) order: each
operation is visited once, the selected rule (if any) replaces it by its
rewrite output.  Returns the new region, whether any rule fired, and the trace
of applied rule indices in application order. -/
def sweepTD (pats : List RewritePattern) :
    Region → Region × Bool × List Nat
  | [] => ([], false, [])
  | op :: rest =>
    match selectRule pats op with
    | some (i, p) =>
      let r := sweepTD pats rest
      (p.rewrite op ++ r.1, true, i :: r.2.2)
    | none =>
      let r := sweepTD pats rest
      (op :: r.1, r.2.1, r.2.2)

/-- One sweep in the configured traversal order: top-down processes the region
in definition order, bottom-up processes it reversed. -/
def sweepOrdered (topDown : Bool) (pats : List RewritePattern)
    (region : Region) : Region × Bool × List Nat :=
  if topDown then sweepTD pats region
  else
    let r := sweepTD pats region.reverse
    (r.1.reverse, r.2.1, r.2.2)

/-- The driver's result: the rewritten region, the number of sweeps performed,
the rule-application trace, and whether a fixed point was reached. -/
structure GreedyResult where
  region : Region
  sweeps : Nat
  trace : List Nat
  converged : Bool
deriving DecidableEq, Repr

/-- Modelled from the spec: the bounded fixed-point loop — repeat sweeps while
some rule fired, stopping at the fuel bound; exhausting the bound without
convergence is not an error, only reported through `converged = false`. -/
def greedyLoop (topDown : Bool) (pats : List RewritePattern) :
    Nat → Region → GreedyResult
  | 0, region => { region := region, sweeps := 0, trace := [], converged := false }
  | n + 1, region =>
    let s := sweepOrdered topDown pats region
    if s.2.1 then
      let res := greedyLoop topDown pats n s.1
      { region := res.region, sweeps := res.sweeps + 1,
        trace := s.2.2 ++ res.trace, converged := res.converged }
    else
      { region := s.1, sweeps := 1, trace := [], converged := true }

/-- Modelled from the spec: `ApplyPatternsGreedily(region, patterns, cfg)` —
the bounded greedy fixed-point rewrite of a region. -/
def ApplyPatternsGreedily (region : Region) (pats : FrozenRewritePatternSet)
    (cfg : GreedyRewriteConfig) : GreedyResult :=
  greedyLoop cfg.use_top_down_traversal pats.patterns cfg.max_iterations region

/-- `PatternRewritePass::Run` from `pass.h`: build the fixed configuration
(top-down, 10 iterations) and apply the frozen patterns greedily to
`op->region(0)`; the other regions of the operation are untouched. -/
def patternRewriteRun (pats : FrozenRewritePatternSet) (op : Operation) :
    Operation :=
  { op with
    regions :=
      op.regions.set 0
        (ApplyPatternsGreedily (op.regions.getD 0 []) pats
          patternRewriteRunConfig).region }

/-! ## The `Pass` object and its execution-state accessors -/

/-- The state a `Pass` object carries (`pass.h`): its `pass_info_` and the
`std::optional<detail::PassExecutionState> pass_state_`, empty outside a
run. -/
structure Pass where
  pass_info : PassInfo
  pass_state_ : Option PassExecutionState
deriving DecidableEq, Repr

/-- `Pass::pass_state()`: `IR_ENFORCE(pass_state_.has_value() == true, "pass
state has no value")`, then dereference — modelled as `Except`, the enforce
failure carrying the message. -/
def Pass.pass_state (p : Pass) : Except String PassExecutionState :=
  match p.pass_state_ with
  | some s => Except.ok s
  | none => Except.error "pass state has no value"

/-- `Pass::analysis_manager()`: `pass_state().am`. -/
def Pass.analysis_manager (p : Pass) : Except String AnalysisManager :=
  (p.pass_state).map (fun s => s.am)

/-- `Pass::SignalPassFailure()`: `pass_state().pass_failed = true` — the write
through the enforced accessor, returning the updated pass. -/
def Pass.SignalPassFailure (p : Pass) : Except String Pass :=
  (p.pass_state).map fun s =>
    { p with pass_state_ := some { s with pass_failed := true } }

/-- The operations of the pass interface (`pass.h`) that touch the installed
execution state: `SignalPassFailure` (the only writer of `pass_failed`),
reading the state, and reading the analysis manager.  No interface operation
writes `pass_failed := false`. -/
inductive PassStateOp where
  | signalPassFailure
  | readPassState
  | readAnalysisManager
deriving DecidableEq, Repr

/-- Effect of one interface operation on the execution state: only
`SignalPassFailure` writes, and it writes `true`. -/
def stepOp : PassStateOp → PassExecutionState → PassExecutionState
  | PassStateOp.signalPassFailure, s => { s with pass_failed := true }
  | PassStateOp.readPassState, s => s
  | PassStateOp.readAnalysisManager, s => s

/-- Effect of a sequence of interface operations, in order. -/
def runOps (ops : List PassStateOp) (s : PassExecutionState) :
    PassExecutionState :=
  ops.foldl (fun s op => stepOp op s) s

/-! ## Pass Manager

Modelled from the spec (§4.2): the `PassManager` orchestration is not among
the sources (`pass.h` declares `dependents` with the comment "PassManager will
check the constraint(TODO)"); the spec treats the dependency check as enforced
fail-fast gating, and prescribes per pass: check `CanApplyOn`, call
`Initialize`, construct a fresh state, call `Run`, inspect `pass_failed`. -/

/-- Modelled from the spec: the default `Pass::CanApplyOn` (its body lives in
`pass.cc`, not among the sources) — "a fast precondition check (default
true)". -/
def defaultCanApplyOn (_op : Operation) : Bool :=
  true

/-- A pass as the manager drives it: its `PassInfo`, its `CanApplyOn`
predicate, the outcome of `Initialize` (an enforce failure or a boolean), and
its `Run`, which transforms the graph and reports the `pass_failed` flag of
its execution state. -/
structure MPass where
  info : PassInfo
  canApplyOn : Operation → Bool
  init : Except String Bool
  run : Operation → Operation × Bool

/-- Modelled from the spec: check that every pass's declared dependents name
passes appearing earlier in the list (`earlier` accumulates the names seen so
far). -/
def dependentsOk (earlier : List String) : List PassInfo → Bool
  | [] => true
  | i :: rest =>
    i.dependents.all (fun d => earlier.contains d) &&
      dependentsOk (earlier ++ [i.name]) rest

/-- Modelled from the spec: the fail-fast dependency validation over the whole
pass list, run before any pass. -/
def validateDependents (passes : List MPass) : Bool :=
  dependentsOk [] (passes.map (fun p => p.info))

/-- Modelled from the spec: run the (already validated) pass list in order —
consult `CanApplyOn`, then `Initialize`, then `Run`; a configuration error or
a signalled failure aborts the remaining sequence.  The second component is
the names of the passes whose `Run` was invoked, in order. -/
def runPasses : List MPass → Operation → Except String Operation × List String
  | [], op => (Except.ok op, [])
  | p :: rest, op =>
    if p.canApplyOn op = false then
      (Except.error ("cannot apply pass " ++ p.info.name ++ " on this graph"), [])
    else
      match p.init with
      | Except.error e => (Except.error e, [])
      | Except.ok false =>
        (Except.error ("pass " ++ p.info.name ++ " failed to initialize"), [])
      | Except.ok true =>
        let r := p.run op
        if r.2 then
          (Except.error ("pass " ++ p.info.name ++ " failed"), [p.info.name])
        else
          let next := runPasses rest r.1
          (next.1, p.info.name :: next.2)

/-- Modelled from the spec: the Pass Manager — validate the dependency
constraints of the whole list first (rejecting the configuration before any
`Run`), then run the passes in order. -/
def pmRun (passes : List MPass) (op : Operation) :
    Except String Operation × List String :=
  if validateDependents passes then runPasses passes op
  else (Except.error "unsatisfied pass dependency", [])

/-- A `PatternRewritePass` as the manager sees it: default `CanApplyOn`, the
`Initialize` of `pass.h` applied to the set produced by `InitializePatterns`,
and the `Run` of `pass.h` over the frozen set (a pattern-rewrite pass never
signals failure itself). -/
def mkPatternRewritePass (info : PassInfo)
    (initPatterns : RewritePatternSet) : MPass :=
  { info := info
    canApplyOn := defaultCanApplyOn
    init := (patternRewriteInit info.name initPatterns).map (fun r => r.2)
    run := fun op =>
      (patternRewriteRun (initPatterns.freeze) op, false) }

/-! ## Concrete sample inputs used to instantiate the theorems -/

/-- A sample rule on kind 0 with benefit 1 that erases its operation. -/
def wPatA : RewritePattern :=
  { kind := 0, benefit := 1, matched := fun _ => true, rewrite := fun _ => [] }

/-- A sample rule on kind 0 with benefit 2 that bumps the attribute. -/
def wPatB : RewritePattern :=
  { kind := 0, benefit := 2, matched := fun _ => true,
    rewrite := fun o => [{ o with attr := o.attr + 1 }] }

/-- A sample operation node of kind 0. -/
def wOpNode : OpNode := { kind := 0, attr := 0 }

/-- A sample graph root with two regions. -/
def wOp : Operation :=
  { kind := 0, regions := [[{ kind := 0, attr := 0 }], [{ kind := 1, attr := 1 }]] }

/-- A sample plain pass that does nothing and never fails. -/
def wSimplePass (nm : String) (deps : List String) : MPass :=
  { info := { name := nm, opt_level := 0, dependents := deps }
    canApplyOn := defaultCanApplyOn
    init := Except.ok true
    run := fun op => (op, false) }

/-- A sample pass whose `CanApplyOn` rejects every graph. -/
def wNoApplyPass : MPass :=
  { info := { name := "never", opt_level := 0, dependents := [] }
    canApplyOn := fun _ => false
    init := Except.ok true
    run := fun op => (op, false) }

/-! ## Helper lemmas -/

theorem stepOp_preserves_failed (op : PassStateOp) (s : PassExecutionState)
    (h : s.pass_failed = true) : (stepOp op s).pass_failed = true := by
  cases op <;> simp [stepOp, h]

theorem runOps_preserves_failed (ops : List PassStateOp)
    (s : PassExecutionState) (h : s.pass_failed = true) :
    (runOps ops s).pass_failed = true := by
  induction ops generalizing s with
  | nil => simpa [runOps] using h
  | cons op rest ih =>
    simpa [runOps] using ih _ (stepOp_preserves_failed op s h)

theorem greedyLoop_sweeps_le (topDown : Bool) (pats : List RewritePattern) :
    ∀ (n : Nat) (region : Region),
      (greedyLoop topDown pats n region).sweeps ≤ n := by
  intro n
  induction n with
  | zero => intro region; simp [greedyLoop]
  | succ n ih =>
    intro region
    simp only [greedyLoop]
    split
    · simp [Nat.succ_le_succ (ih _)]
    · simp

theorem chooseBest_cons_ne_none (x : Nat × RewritePattern)
    (xs : List (Nat × RewritePattern)) : chooseBest (x :: xs) ≠ none := by
  simp [chooseBest]

theorem chooseBest_eq_none (l : List (Nat × RewritePattern))
    (h : chooseBest l = none) : l = [] := by
  cases l with
  | nil => rfl
  | cons x xs => exact absurd h (chooseBest_cons_ne_none x xs)

theorem chooseBest_spec :
    ∀ (l : List (Nat × RewritePattern)),
      l.Pairwise (fun a b => a.1 < b.1) →
      ∀ b, chooseBest l = some b →
        b ∈ l ∧ ∀ x ∈ l, x.2.benefit ≤ b.2.benefit ∧
          (x.2.benefit = b.2.benefit → b.1 ≤ x.1) := by
  intro l
  induction l with
  | nil => intro _ b hb; simp [chooseBest] at hb
  | cons a xs ih =>
    intro hpw b hb
    rw [List.pairwise_cons] at hpw
    obtain ⟨ha, hxs⟩ := hpw
    simp only [chooseBest] at hb
    rcases hc : chooseBest xs with _ | b'
    · have hnil := chooseBest_eq_none xs hc
      subst hnil
      rw [hc, Option.elim_none] at hb
      simp only [Option.some.injEq] at hb
      subst hb
      refine ⟨List.mem_singleton.mpr rfl, ?_⟩
      intro x hx
      rw [List.mem_singleton] at hx
      subst hx
      exact ⟨Nat.le_refl _, fun _ => Nat.le_refl _⟩
    · rw [hc, Option.elim_some] at hb
      simp only [Option.some.injEq, pickBetter] at hb
      obtain ⟨hb'mem, hb'all⟩ := ih hxs b' hc
      by_cases hgt : b'.2.benefit > a.2.benefit
      · rw [if_pos hgt] at hb
        subst hb
        refine ⟨List.mem_cons_of_mem _ hb'mem, ?_⟩
        intro x hx
        rcases List.mem_cons.mp hx with rfl | hx'
        · exact ⟨Nat.le_of_lt hgt, fun he => absurd he (Nat.ne_of_lt hgt)⟩
        · exact hb'all x hx'
      · rw [if_neg hgt] at hb
        subst hb
        refine ⟨List.mem_cons_self _ _, ?_⟩
        intro x hx
        rcases List.mem_cons.mp hx with rfl | hx'
        · exact ⟨Nat.le_refl _, fun _ => Nat.le_refl _⟩
        · have h1 := (hb'all x hx').1
          have h2 := Nat.le_of_not_lt hgt
          exact ⟨Nat.le_trans h1 h2,
            fun _ => Nat.le_of_lt (ha x hx')⟩

theorem mem_enumFrom_le (xs : List RewritePattern) :
    ∀ (n : Nat) (y : Nat × RewritePattern), y ∈ xs.enumFrom n → n ≤ y.1 := by
  induction xs with
  | nil => intro n y h; simp [List.enumFrom] at h
  | cons x xs ih =>
    intro n y h
    simp only [List.enumFrom, List.mem_cons] at h
    rcases h with rfl | h
    · exact Nat.le_refl n
    · exact Nat.le_of_succ_le (ih (n + 1) y h)

theorem pairwise_enumFrom (l : List RewritePattern) :
    ∀ n, (l.enumFrom n).Pairwise (fun a b => a.1 < b.1) := by
  induction l with
  | nil => intro n; simp [List.enumFrom]
  | cons x xs ih =>
    intro n
    simp only [List.enumFrom]
    refine List.Pairwise.cons ?_ (ih (n + 1))
    intro y hy
    exact Nat.lt_of_succ_le (mem_enumFrom_le xs (n + 1) y hy)

theorem candidates_pairwise (pats : List RewritePattern) (op : OpNode) :
    (candidates pats op).Pairwise (fun a b => a.1 < b.1) := by
  have h : (pats.enum).Pairwise (fun a b => a.1 < b.1) := pairwise_enumFrom pats 0
  exact List.Pairwise.sublist (List.filter_sublist _) h

/-! ## Claim theorems -/

/-- C10: for every operation pointer `ir` and analysis manager `am`, a freshly
constructed `PassExecutionState` has `pass_failed = false`, holds exactly the
given `ir` and `am`, and has an empty (default) `preserved_analyses` set. -/
theorem c10_fresh_state_fields (ir : Operation) (am : AnalysisManager) :
    (PassExecutionState.make ir am).pass_failed = false ∧
    (PassExecutionState.make ir am).ir = ir ∧
    (PassExecutionState.make ir am).am = am ∧
    (PassExecutionState.make ir am).preserved_analyses = { preserved := [] } :=
  ⟨rfl, rfl, rfl, rfl⟩

/-- C3: once `SignalPassFailure` has run, `pass_failed` is `true` and stays
`true` under any further sequence of pass-interface operations (further
signals, state reads, analysis-manager reads); none can reset it. -/
theorem c3_signal_failure_sticky (s : PassExecutionState)
    (ops : List PassStateOp) :
    (stepOp PassStateOp.signalPassFailure s).pass_failed = true ∧
    (runOps ops (stepOp PassStateOp.signalPassFailure s)).pass_failed = true :=
  ⟨rfl, runOps_preserves_failed ops _ rfl⟩

/-- C8: when no execution state is installed (`pass_state_` is empty),
`pass_state()`, `SignalPassFailure()` and `analysis_manager()` all fail with
the enforce message "pass state has no value". -/
theorem c8_pass_state_enforced (p : Pass) (h : p.pass_state_ = none) :
    p.pass_state = Except.error "pass state has no value" ∧
    p.SignalPassFailure = Except.error "pass state has no value" ∧
    p.analysis_manager = Except.error "pass state has no value" := by
  refine ⟨?_, ?_, ?_⟩ <;>
    simp [Pass.pass_state, Pass.SignalPassFailure, Pass.analysis_manager, h,
      Except.map]

/-- Witness for C8 at a concrete pass object with no installed state. -/
theorem c8_pass_state_enforced_witness :
    ({ pass_info := { name := "w", opt_level := 0, dependents := [] },
       pass_state_ := none } : Pass).pass_state =
      Except.error "pass state has no value" ∧
    ({ pass_info := { name := "w", opt_level := 0, dependents := [] },
       pass_state_ := none } : Pass).SignalPassFailure =
      Except.error "pass state has no value" ∧
    ({ pass_info := { name := "w", opt_level := 0, dependents := [] },
       pass_state_ := none } : Pass).analysis_manager =
      Except.error "pass state has no value" :=
  c8_pass_state_enforced _ rfl

/-- C4: `PatternRewritePass::Run` invokes the greedy driver with exactly the
fixed configuration — top-down traversal enabled and `max_iterations = 10` —
on the operation's region 0. -/
theorem c4_run_fixed_config (pats : FrozenRewritePatternSet) (op : Operation) :
    patternRewriteRunConfig.use_top_down_traversal = true ∧
    patternRewriteRunConfig.max_iterations = 10 ∧
    patternRewriteRun pats op =
      { op with
        regions :=
          op.regions.set 0
            (ApplyPatternsGreedily (op.regions.getD 0 []) pats
              patternRewriteRunConfig).region } :=
  ⟨rfl, rfl, rfl⟩

/-- C5: for every frozen pattern set, region and configuration, the greedy
driver performs at most `max_iterations` sweeps; it is a total function, so
hitting the bound without convergence still yields a result rather than an
error. -/
theorem c5_driver_bounded (region : Region) (pats : FrozenRewritePatternSet)
    (cfg : GreedyRewriteConfig) :
    (ApplyPatternsGreedily region pats cfg).sweeps ≤ cfg.max_iterations :=
  greedyLoop_sweeps_le _ _ _ _

/-- C1: a `PatternRewritePass` whose `InitializePatterns` yields an empty set
fails `Initialize` with the enforce message and its `Run` is never invoked by
the manager (empty run trace); a non-empty set is frozen and `Initialize`
returns `true`. -/
theorem c1_empty_set_aborts (info : PassInfo) (ps : RewritePatternSet)
    (op : Operation) :
    (ps.Empty = true →
      patternRewriteInit info.name ps =
        Except.error (patternPassEmptyMsg info.name) ∧
      (pmRun [mkPatternRewritePass info ps] op).2 = []) ∧
    (ps.Empty = false →
      patternRewriteInit info.name ps = Except.ok (ps.freeze, true)) := by
  constructor
  · intro h
    refine ⟨by simp [patternRewriteInit, h], ?_⟩
    simp only [pmRun]
    split
    · simp [runPasses, mkPatternRewritePass, defaultCanApplyOn,
        patternRewriteInit, h, Except.map]
    · rfl
  · intro h
    simp [patternRewriteInit, h]

/-- Witness for C1: a concrete empty set aborts with empty run trace, a
concrete one-rule set initializes successfully. -/
theorem c1_empty_set_aborts_witness :
    (patternRewriteInit (PassInfo.make "w" 0 []).name (RewritePatternSet.mk []) =
        Except.error (patternPassEmptyMsg (PassInfo.make "w" 0 []).name) ∧
      (pmRun
          [mkPatternRewritePass (PassInfo.make "w" 0 [])
            (RewritePatternSet.mk [])] wOp).2 = []) ∧
    patternRewriteInit (PassInfo.make "w" 0 []).name
        (RewritePatternSet.mk [wPatA]) =
      Except.ok ((RewritePatternSet.mk [wPatA]).freeze, true) :=
  ⟨(c1_empty_set_aborts (PassInfo.make "w" 0 []) (RewritePatternSet.mk []) wOp).1
      rfl,
    (c1_empty_set_aborts (PassInfo.make "w" 0 [])
        (RewritePatternSet.mk [wPatA]) wOp).2 rfl⟩

/-- C2: a pass list whose declared dependents are not satisfied by earlier
passes is rejected by the Pass Manager before any pass's `Run` executes: the
result is the configuration error and the run trace is empty. -/
theorem c2_dependency_gating (passes : List MPass) (op : Operation)
    (h : validateDependents passes = false) :
    (pmRun passes op).1 = Except.error "unsatisfied pass dependency" ∧
    (pmRun passes op).2 = [] := by
  constructor <;> simp [pmRun, h]

/-- Witness for C2: a single pass "B" depending on an absent pass "A" is
rejected with an empty run trace. -/
theorem c2_dependency_gating_witness :
    validateDependents [wSimplePass "B" ["A"]] = false ∧
    (pmRun [wSimplePass "B" ["A"]] wOp).1 =
      Except.error "unsatisfied pass dependency" ∧
    (pmRun [wSimplePass "B" ["A"]] wOp).2 = [] :=
  ⟨rfl, c2_dependency_gating [wSimplePass "B" ["A"]] wOp rfl⟩

/-- C7: the base `CanApplyOn` returns `true` for every operation, and the
manager consults `CanApplyOn` before attempting `Run`: a pass rejecting the
graph leads to an error with no `Run` invoked. -/
theorem c7_can_apply_on_default (op : Operation) (p : MPass)
    (rest : List MPass) (h : p.canApplyOn op = false) :
    defaultCanApplyOn op = true ∧
    (runPasses (p :: rest) op).1 =
      Except.error ("cannot apply pass " ++ p.info.name ++ " on this graph") ∧
    (runPasses (p :: rest) op).2 = [] := by
  refine ⟨rfl, ?_, ?_⟩ <;> simp [runPasses, h]

/-- Witness for C7 at a concrete pass whose `CanApplyOn` rejects every
graph. -/
theorem c7_can_apply_on_default_witness :
    defaultCanApplyOn wOp = true ∧
    (runPasses [wNoApplyPass] wOp).1 =
      Except.error ("cannot apply pass " ++ wNoApplyPass.info.name ++
        " on this graph") ∧
    (runPasses [wNoApplyPass] wOp).2 = [] :=
  c7_can_apply_on_default wOp wNoApplyPass [] rfl

/-- C9: `PatternRewritePass::Run` rewrites only region 0 of the operation;
every region at an index other than 0 is unchanged. -/
theorem c9_frame_other_regions (pats : FrozenRewritePatternSet)
    (op : Operation) (i : Nat) (h : i ≠ 0) :
    (patternRewriteRun pats op).regions.get? i = op.regions.get? i := by
  simp only [patternRewriteRun, List.get?_eq_getElem?]
  exact List.getElem?_set_ne (fun hh => h hh.symm)

/-- Witness for C9: region 1 of the sample graph survives the pattern pass
unchanged. -/
theorem c9_frame_other_regions_witness :
    (patternRewriteRun (RewritePatternSet.mk [wPatA]).freeze wOp).regions.get? 1 =
      wOp.regions.get? 1 :=
  c9_frame_other_regions (RewritePatternSet.mk [wPatA]).freeze wOp 1 (by decide)

/-- C6: the greedy driver is deterministic — two runs on the same initial
region, pattern set and configuration produce identical results (same final
region and same rule-application trace) — and ties among applicable rules on
one operation are broken by descending benefit and then registration order:
the selected rule is a matching candidate of maximal benefit, and of minimal
registration index among equal benefits. -/
theorem c6_deterministic_tiebreak :
    (∀ (r1 r2 : Region) (p1 p2 : FrozenRewritePatternSet)
        (g1 g2 : GreedyRewriteConfig),
        r1 = r2 → p1 = p2 → g1 = g2 →
        ApplyPatternsGreedily r1 p1 g1 = ApplyPatternsGreedily r2 p2 g2) ∧
    (∀ (pats : List RewritePattern) (op : OpNode) (i : Nat)
        (p : RewritePattern),
        selectRule pats op = some (i, p) →
        (i, p) ∈ candidates pats op ∧
        ∀ c ∈ candidates pats op,
          c.2.benefit ≤ p.benefit ∧ (c.2.benefit = p.benefit → i ≤ c.1)) := by
  constructor
  · intro r1 r2 p1 p2 g1 g2 h1 h2 h3
    rw [h1, h2, h3]
  · intro pats op i p h
    exact chooseBest_spec (candidates pats op) (candidates_pairwise pats op)
      (i, p) h

/-- Witness for C6: a concrete driver run equals its rerun, and with two
matching rules of benefits 1 and 2 on the sample node the benefit-2 rule at
registration index 1 is selected and dominates every candidate. -/
theorem c6_deterministic_tiebreak_witness :
    ApplyPatternsGreedily [wOpNode]
        (RewritePatternSet.mk [wPatA, wPatB]).freeze patternRewriteRunConfig =
      ApplyPatternsGreedily [wOpNode]
        (RewritePatternSet.mk [wPatA, wPatB]).freeze patternRewriteRunConfig ∧
    ((1, wPatB) ∈ candidates [wPatA, wPatB] wOpNode ∧
      ∀ c ∈ candidates [wPatA, wPatB] wOpNode,
        c.2.benefit ≤ wPatB.benefit ∧ (c.2.benefit = wPatB.benefit → 1 ≤ c.1)) :=
  ⟨c6_deterministic_tiebreak.1 _ _ _ _ _ _ rfl rfl rfl,
    c6_deterministic_tiebreak.2 [wPatA, wPatB] wOpNode 1 wPatB rfl⟩

end PirPass
